import Mathlib

/-!
Verification of the per-user distributed lock manager and its
request-interception middleware, embedded from
`src/services/backend/backend/libs/redis_lock.py` and
`src/services/backend/backend/libs/tts_lock.py`.

The embedding models the coordination store as a presence predicate on
keys, the atomic `SET key 1 NX EX ttl` as a step that succeeds exactly
when the key is absent, and `DEL key` as unconditional removal.  The
lock-acquisition loop of `RedisLockManager.acquire_lock` is embedded
three ways, each a projection of the same source lines:

  * `acquireGo` / `acquire_lock`: the sequential control flow of one
    caller, with the outcome of each `SET ... NX` call given by an
    oracle (the store is shared, so from one caller the answer of the
    store is an external input), producing the event trace (tryAcquire,
    sleep, guarded body, release, raise-429), the result, and the final
    store state;
  * `LStep`: an interleaving small-step system for many callers racing
    on the same lock key, used for the mutual-exclusion claim;
  * `delay`: the backoff schedule, as exact rational arithmetic.
-/

namespace InvincibleVoice

/-- Lock key derivation, from `lock_key = f"{lock_name}:lock:{user_id}"`
(redis_lock.py line 37). -/
def lock_key (lock_name user_id : String) : String :=
  lock_name ++ ":lock:" ++ user_id

/-- Backoff delay after the failed attempt with index `attempt`, from
`delay = min(base_delay * (2**attempt), max_delay)` with
`base_delay = 0.1` and `max_delay = 4.0` (redis_lock.py lines 42-43, 59),
as exact rational arithmetic. -/
def delay (attempt : Nat) : ℚ :=
  min ((1 / 10) * 2 ^ attempt) 4

/-- Message of the HTTP 429 raised on exhaustion, from
`f"Another {lock_name.upper()} operation is currently in progress. Please wait."`
(redis_lock.py line 72). -/
def raiseDetail (lock_name : String) : String :=
  "Another " ++ lock_name.toUpper ++ " operation is currently in progress. Please wait."

/-- The coordination store, as the set of keys currently present. -/
def Store : Type := String → Bool

/-- Effect of a successful `SET key "1" NX EX ttl`: the key becomes present. -/
def setKey (k : String) (s : Store) : Store :=
  fun x => if x = k then true else s x

/-- Effect of `DEL key`: the key becomes absent. -/
def delKey (k : String) (s : Store) : Store :=
  fun x => if x = k then false else s x

/-- Observable events of one `acquire_lock` run, in program order. -/
inductive LockEvent : Type where
  | tryAcquire : LockEvent
  | sleep : ℚ → LockEvent
  | enterGuarded : LockEvent
  | release : LockEvent
  | raise429 : String → LockEvent
deriving DecidableEq

/-- Result of one `acquire_lock` run: the guarded body returned a value,
the guarded body raised (propagated after release), or the retry budget
was exhausted and HTTP 429 was raised. -/
inductive LockResult (E A : Type) : Type where
  | ok : A → LockResult E A
  | failed : E → LockResult E A
  | contention : String → LockResult E A
deriving DecidableEq

/-- The retry loop of `RedisLockManager.acquire_lock` (redis_lock.py
lines 45-73).  `fuel` is the number of remaining iterations of
`for attempt in range(max_retries)`, `attempt` the current loop index,
`oracle attempt` the answer of the shared store to the
`SET lock_key "1" NX EX ttl` call of this iteration.  On success the key is set, the
guarded body runs (it may read and write the store), and the
`try ... finally` deletes the key before the outcome of the body is
propagated; on failure the computed backoff delay is slept and the loop
continues; when the range is exhausted the 429 is raised. -/
def acquireGo {E A : Type} (lock_name key : String) (oracle : Nat → Bool)
    (body : Store → Except E A × Store) :
    Nat → Nat → Store → List LockEvent × LockResult E A × Store
  | 0, _, s =>
      ([LockEvent.raise429 (raiseDetail lock_name)],
       LockResult.contention (raiseDetail lock_name), s)
  | fuel + 1, attempt, s =>
      if oracle attempt then
        let s1 := setKey key s
        let r := body s1
        let res : LockResult E A :=
          match r.1 with
          | Except.ok a => LockResult.ok a
          | Except.error e => LockResult.failed e
        ([LockEvent.tryAcquire, LockEvent.enterGuarded, LockEvent.release],
         res, delKey key r.2)
      else
        let rest := acquireGo lock_name key oracle body fuel (attempt + 1) s
        (LockEvent.tryAcquire :: LockEvent.sleep (delay attempt) :: rest.1,
         rest.2.1, rest.2.2)

/-- `RedisLockManager.acquire_lock(user_id, lock_name)` (redis_lock.py
lines 32-73): derives the lock key, then runs the retry loop with
`max_retries = 7` starting at attempt 0. -/
def acquire_lock {E A : Type} (user_id lock_name : String) (oracle : Nat → Bool)
    (body : Store → Except E A × Store) (s : Store) :
    List LockEvent × LockResult E A × Store :=
  acquireGo lock_name (lock_key lock_name user_id) oracle body 7 0 s

/-- The event trace of a run in which every `SET ... NX` call fails:
try, sleep, try, sleep, ..., raise 429. -/
def allFailTrace (lock_name : String) : Nat → Nat → List LockEvent
  | 0, _ => [LockEvent.raise429 (raiseDetail lock_name)]
  | fuel + 1, attempt =>
      LockEvent.tryAcquire :: LockEvent.sleep (delay attempt) ::
        allFailTrace lock_name fuel (attempt + 1)

/-- The sleep durations occurring in a trace, in order. -/
def sleeps (evs : List LockEvent) : List ℚ :=
  evs.filterMap (fun e =>
    match e with
    | LockEvent.sleep d => some d
    | _ => none)

theorem acquireGo_allFail {E A : Type} (lock_name key : String) (oracle : Nat → Bool)
    (body : Store → Except E A × Store) :
    ∀ fuel attempt s, (∀ i, i < fuel → oracle (attempt + i) = false) →
      acquireGo lock_name key oracle body fuel attempt s =
        (allFailTrace lock_name fuel attempt,
         LockResult.contention (raiseDetail lock_name), s)
  | 0, _, _, _ => rfl
  | fuel + 1, attempt, s, h => by
      have h0 : oracle attempt = false := by simpa using h 0 (Nat.succ_pos fuel)
      have ih := acquireGo_allFail lock_name key oracle body fuel (attempt + 1) s
        (fun i hi => by
          have hx : attempt + 1 + i = attempt + (i + 1) := by omega
          rw [hx]
          exact h (i + 1) (by omega))
      simp [acquireGo, allFailTrace, h0, ih]

/-- Claim C5: with max_retries = 7, base_delay = 0.1 and max_delay = 4.0,
the delay after the failed attempt with index i equals
min(0.1 * 2 ^ i, 4.0); the sequence of the seven delays is exactly
[0.1, 0.2, 0.4, 0.8, 1.6, 3.2, 4.0], and every attempt index of 6 or
beyond is capped at 4.0. -/
theorem backoff_schedule :
    (∀ i, delay i = min ((1 / 10) * 2 ^ i) 4) ∧
    (List.range 7).map delay = [0.1, 0.2, 0.4, 0.8, 1.6, 3.2, 4.0] ∧
    (∀ i, 6 ≤ i → delay i = 4) := by
  refine ⟨fun i => rfl, ?_, ?_⟩
  · have h7 : List.range 7 = [0, 1, 2, 3, 4, 5, 6] := rfl
    rw [h7]
    norm_num [delay, min_def]
  · intro i hi
    have hpow : (2 : ℚ) ^ 6 ≤ 2 ^ i := by
      apply pow_le_pow_right₀ (by norm_num) hi
    have h4 : (4 : ℚ) ≤ (1 / 10) * 2 ^ i := by
      norm_num at hpow ⊢
      linarith
    unfold delay
    exact min_eq_right h4

/-- Witness for backoff_schedule at the concrete index 8. -/
theorem backoff_schedule_witness : 6 ≤ 8 ∧ delay 8 = 4 :=
  ⟨by decide, backoff_schedule.2.2 8 (by decide)⟩

/-- Claim C4: when every SET-NX call fails over all 7 attempts,
acquire_lock makes exactly 7 tryAcquire calls, never runs the guarded
body, never releases, ends in an HTTP 429 whose message names the
contended lock name (uppercased), and the result is contention rather
than an unguarded run. -/
theorem exhaustion_rejects {E A : Type} (user_id lock_name : String)
    (oracle : Nat → Bool) (body : Store → Except E A × Store) (s : Store)
    (h : ∀ i, i < 7 → oracle i = false) :
    (acquire_lock user_id lock_name oracle body s).1.count LockEvent.tryAcquire = 7 ∧
    LockEvent.enterGuarded ∉ (acquire_lock user_id lock_name oracle body s).1 ∧
    LockEvent.release ∉ (acquire_lock user_id lock_name oracle body s).1 ∧
    (acquire_lock user_id lock_name oracle body s).2.1 =
      LockResult.contention (raiseDetail lock_name) ∧
    (acquire_lock user_id lock_name oracle body s).1.getLast? =
      some (LockEvent.raise429 (raiseDetail lock_name)) ∧
    raiseDetail lock_name =
      "Another " ++ lock_name.toUpper ++ " operation is currently in progress. Please wait." := by
  have key := acquireGo_allFail lock_name (lock_key lock_name user_id) oracle body 7 0 s
    (fun i hi => by simpa using h i hi)
  unfold acquire_lock
  rw [key]
  refine ⟨?_, ?_, ?_, rfl, ?_, rfl⟩
  · simp [allFailTrace, List.count_cons]
  · simp [allFailTrace]
  · simp [allFailTrace]
  · simp [allFailTrace]

/-- Witness for exhaustion_rejects: the all-false oracle with a trivial
body on the empty store. -/
theorem exhaustion_rejects_witness :
    (acquire_lock (E := Unit) (A := Unit) "u" "tts" (fun _ => false)
        (fun s => (Except.ok (), s)) (fun _ => false)).2.1 =
      LockResult.contention (raiseDetail "tts") :=
  (exhaustion_rejects "u" "tts" (fun _ => false) (fun s => (Except.ok (), s))
    (fun _ => false) (fun _ _ => rfl)).2.2.2.1

/-- Claim C9: when every SET-NX call fails, the loop sleeps after every
failed attempt including the last: the trace is try, sleep 0.1, try,
sleep 0.2, ..., try, sleep 4.0, raise 429, so a full 4.0-second delay
separates the seventh failed tryAcquire from the 429, and the total
waiting time is 10.3 seconds (the sum of all seven delays). -/
theorem sleep_after_last_attempt {E A : Type} (user_id lock_name : String)
    (oracle : Nat → Bool) (body : Store → Except E A × Store) (s : Store)
    (h : ∀ i, i < 7 → oracle i = false) :
    (acquire_lock user_id lock_name oracle body s).1 =
      [LockEvent.tryAcquire, LockEvent.sleep 0.1,
       LockEvent.tryAcquire, LockEvent.sleep 0.2,
       LockEvent.tryAcquire, LockEvent.sleep 0.4,
       LockEvent.tryAcquire, LockEvent.sleep 0.8,
       LockEvent.tryAcquire, LockEvent.sleep 1.6,
       LockEvent.tryAcquire, LockEvent.sleep 3.2,
       LockEvent.tryAcquire, LockEvent.sleep 4.0,
       LockEvent.raise429 (raiseDetail lock_name)] ∧
    (sleeps (acquire_lock user_id lock_name oracle body s).1).sum = 10.3 := by
  have key := acquireGo_allFail lock_name (lock_key lock_name user_id) oracle body 7 0 s
    (fun i hi => by simpa using h i hi)
  unfold acquire_lock
  rw [key]
  constructor
  · simp only [allFailTrace]
    norm_num [delay, min_def]
  · simp only [allFailTrace, sleeps, List.filterMap]
    norm_num [delay, min_def]

/-- Witness for sleep_after_last_attempt: the all-false oracle with a
trivial body on the empty store. -/
theorem sleep_after_last_attempt_witness :
    (sleeps (acquire_lock (E := Unit) (A := Unit) "u" "tts" (fun _ => false)
        (fun s => (Except.ok (), s)) (fun _ => false)).1).sum = 10.3 :=
  (sleep_after_last_attempt "u" "tts" (fun _ => false) (fun s => (Except.ok (), s))
    (fun _ => false) (fun _ _ => rfl)).2

theorem acquireGo_acquired {E A : Type} (lock_name key : String) (oracle : Nat → Bool)
    (body : Store → Except E A × Store) :
    ∀ fuel attempt s, (∃ i, i < fuel ∧ oracle (attempt + i) = true) →
      (acquireGo lock_name key oracle body fuel attempt s).2.2 =
          delKey key (body (setKey key s)).2 ∧
      (acquireGo lock_name key oracle body fuel attempt s).2.1 =
          (match (body (setKey key s)).1 with
           | Except.ok a => LockResult.ok a
           | Except.error e => LockResult.failed e) ∧
      LockEvent.release ∈ (acquireGo lock_name key oracle body fuel attempt s).1 ∧
      LockEvent.enterGuarded ∈ (acquireGo lock_name key oracle body fuel attempt s).1
  | 0, _, _, h => absurd h (by simp)
  | fuel + 1, attempt, s, h => by
      by_cases h0 : oracle attempt = true
      · simp [acquireGo, h0]
      · obtain ⟨i, hi, hoi⟩ := h
        have hne : i ≠ 0 := by
          rintro rfl
          exact h0 (by simpa using hoi)
        have ih := acquireGo_acquired lock_name key oracle body fuel (attempt + 1) s
          ⟨i - 1, by omega, by
            rw [show attempt + 1 + (i - 1) = attempt + i by omega]
            exact hoi⟩
        simp only [acquireGo, if_neg h0]
        refine ⟨ih.1, ih.2.1, ?_, ?_⟩
        · simp [ih.2.2.1]
        · simp [ih.2.2.2]

/-- Claim C2: whenever some SET-NX attempt succeeds within the retry
budget, the lock key is deleted before control returns on every exit
path of the guarded body, the key is absent from the store afterwards,
and the outcome of the guarded body (value or error) is propagated
unchanged. -/
theorem guaranteed_release {E A : Type} (user_id lock_name : String)
    (oracle : Nat → Bool) (body : Store → Except E A × Store) (s : Store)
    (h : ∃ i, i < 7 ∧ oracle i = true) :
    (acquire_lock user_id lock_name oracle body s).2.2 (lock_key lock_name user_id) = false ∧
    LockEvent.release ∈ (acquire_lock user_id lock_name oracle body s).1 ∧
    (acquire_lock user_id lock_name oracle body s).2.2 =
      delKey (lock_key lock_name user_id)
        (body (setKey (lock_key lock_name user_id) s)).2 ∧
    (acquire_lock user_id lock_name oracle body s).2.1 =
      (match (body (setKey (lock_key lock_name user_id) s)).1 with
       | Except.ok a => LockResult.ok a
       | Except.error e => LockResult.failed e) := by
  obtain ⟨i, hi, hoi⟩ := h
  have key := acquireGo_acquired lock_name (lock_key lock_name user_id) oracle body 7 0 s
    ⟨i, hi, by simpa using hoi⟩
  unfold acquire_lock
  refine ⟨?_, key.2.2.1, key.1, key.2.1⟩
  rw [key.1]
  simp [delKey]

/-- Witness for guaranteed_release: a body that raises, with an oracle
that grants the lock on the first attempt; the key is absent afterwards
and the error is propagated. -/
theorem guaranteed_release_witness :
    (acquire_lock (E := String) (A := Unit) "u" "tts" (fun _ => true)
        (fun s => (Except.error "boom", s)) (fun _ => false)).2.2
      (lock_key "tts" "u") = false ∧
    (acquire_lock (E := String) (A := Unit) "u" "tts" (fun _ => true)
        (fun s => (Except.error "boom", s)) (fun _ => false)).2.1 =
      LockResult.failed "boom" := by
  have h := guaranteed_release (E := String) (A := Unit) "u" "tts" (fun _ => true)
    (fun s => (Except.error "boom", s)) (fun _ => false) ⟨0, by decide, rfl⟩
  exact ⟨h.1, h.2.2.2⟩

/-- Local state of one caller of `acquire_lock` racing for one fixed
user id and lock name: inside the retry loop at a given attempt index,
past a successful SET-NX and before the delete (holding), past the
delete (released), or out of retries (exhausted). -/
inductive PState : Type where
  | trying : Nat → PState
  | holding : PState
  | released : PState
  | exhausted : PState
deriving DecidableEq

/-- A configuration of the interleaved system: whether the lock key is
present in the store, and the local state of every caller. -/
structure Conf : Type where
  lockHeld : Bool
  procs : List PState
deriving DecidableEq

/-- After a failed attempt the loop either retries with the next
attempt index or leaves the range (max_retries = 7, redis_lock.py
line 41). -/
def nextTrying (a : Nat) : PState :=
  if a + 1 < 7 then PState.trying (a + 1) else PState.exhausted

/-- Interleaving semantics of concurrent `acquire_lock` runs for the
same lock key: each `SET key "1" NX` and each `DEL key` is one atomic
step (redis_lock.py lines 46 and 55).  A SET-NX succeeds exactly when
the key is absent and makes it present; the delete of the holder makes
it absent again. -/
inductive LStep : Conf → Conf → Prop where
  | acqOk (c : Conf) (i a : Nat) (h : c.procs[i]? = some (PState.trying a))
      (ha : a < 7) (hfree : c.lockHeld = false) :
      LStep c ⟨true, c.procs.set i PState.holding⟩
  | acqFail (c : Conf) (i a : Nat) (h : c.procs[i]? = some (PState.trying a))
      (ha : a < 7) (hheld : c.lockHeld = true) :
      LStep c ⟨true, c.procs.set i (nextTrying a)⟩
  | release (c : Conf) (i : Nat) (h : c.procs[i]? = some PState.holding) :
      LStep c ⟨false, c.procs.set i PState.released⟩

/-- Initial configuration: the key absent, `n` callers about to run
attempt 0. -/
def initConf (n : Nat) : Conf :=
  ⟨false, List.replicate n (PState.trying 0)⟩

/-- Configurations reachable by interleaving the atomic steps of
the callers. -/
def ReachableFrom (n : Nat) (c : Conf) : Prop :=
  Relation.ReflTransGen LStep (initConf n) c

/-- Mutual-exclusion invariant: a holder implies the key is present,
and at most one caller is between its successful SET-NX and its
delete. -/
def MutexInv (c : Conf) : Prop :=
  (∀ i : Nat, c.procs[i]? = some PState.holding → c.lockHeld = true) ∧
  (∀ i j : Nat, c.procs[i]? = some PState.holding →
    c.procs[j]? = some PState.holding → i = j)

theorem nextTrying_ne_holding (a : Nat) : nextTrying a ≠ PState.holding := by
  unfold nextTrying
  split <;> simp

theorem mutexInv_init (n : Nat) : MutexInv (initConf n) := by
  unfold MutexInv
  constructor
  · intro i h
    rw [initConf] at h
    simp only [List.getElem?_replicate] at h
    split at h <;> simp_all
  · intro i j hi _
    rw [initConf] at hi
    simp only [List.getElem?_replicate] at hi
    split at hi <;> simp_all

theorem mutexInv_step {c c2 : Conf} (hinv : MutexInv c) (hstep : LStep c c2) :
    MutexInv c2 := by
  unfold MutexInv at hinv ⊢
  cases hstep with
  | acqOk i a h ha hfree =>
      have hnone : ∀ j : Nat, ¬ c.procs[j]? = some PState.holding := by
        intro j hj
        rw [hinv.1 j hj] at hfree
        cases hfree
      refine ⟨fun _ _ => rfl, ?_⟩
      intro j k hj hk
      have hji : j = i := by
        by_contra hne
        rw [List.getElem?_set_ne (fun he => hne he.symm)] at hj
        exact hnone j hj
      have hki : k = i := by
        by_contra hne
        rw [List.getElem?_set_ne (fun he => hne he.symm)] at hk
        exact hnone k hk
      rw [hji, hki]
  | acqFail i a h ha hheld =>
      refine ⟨fun _ _ => rfl, ?_⟩
      intro j k hj hk
      have hilen : i < c.procs.length := by
        rcases List.getElem?_eq_some_iff.1 h with ⟨hl, _⟩
        exact hl
      have hji : j ≠ i := by
        rintro rfl
        rw [List.getElem?_set_self hilen] at hj
        exact nextTrying_ne_holding a (Option.some.inj hj)
      have hki : k ≠ i := by
        rintro rfl
        rw [List.getElem?_set_self hilen] at hk
        exact nextTrying_ne_holding a (Option.some.inj hk)
      rw [List.getElem?_set_ne (fun he => hji he.symm)] at hj
      rw [List.getElem?_set_ne (fun he => hki he.symm)] at hk
      exact hinv.2 j k hj hk
  | release i h =>
      have hilen : i < c.procs.length := by
        rcases List.getElem?_eq_some_iff.1 h with ⟨hl, _⟩
        exact hl
      have hnone : ∀ j : Nat, ¬ (c.procs.set i PState.released)[j]? = some PState.holding := by
        intro j hj
        by_cases hji : j = i
        · rw [hji, List.getElem?_set_self hilen] at hj
          cases hj
        · rw [List.getElem?_set_ne (fun he => hji he.symm)] at hj
          exact hji (hinv.2 j i hj h)
      exact ⟨fun j hj => absurd hj (hnone j), fun j k hj _ => absurd hj (hnone j)⟩

theorem mutexInv_reachable {n : Nat} {c : Conf} (h : ReachableFrom n c) :
    MutexInv c := by
  induction h with
  | refl => exact mutexInv_init n
  | tail _ hstep ih => exact mutexInv_step ih hstep

/-- Claim C1: for a fixed user id and lock name, with each store SET-NX
and DEL an atomic step, no reachable interleaving of concurrent
acquire_lock runs has two distinct callers simultaneously past a
successful SET-NX and before their delete: any two holders coincide. -/
theorem mutual_exclusion (n : Nat) (c : Conf) (i j : Nat)
    (hreach : ReachableFrom n c)
    (hi : c.procs[i]? = some PState.holding)
    (hj : c.procs[j]? = some PState.holding) : i = j :=
  (mutexInv_reachable hreach).2 i j hi hj

/-- Witness for mutual_exclusion: after caller 0 of two acquires the
lock, position 0 holds and the conclusion applies. -/
theorem mutual_exclusion_witness :
    (⟨true, [PState.holding, PState.trying 0]⟩ : Conf).procs[0]? =
      some PState.holding ∧ (0 : Nat) = 0 := by
  have hreach : ReachableFrom 2 ⟨true, [PState.holding, PState.trying 0]⟩ :=
    Relation.ReflTransGen.single
      (LStep.acqOk (initConf 2) 0 0 rfl (by decide) rfl)
  exact ⟨rfl, mutual_exclusion 2 _ 0 0 hreach rfl rfl⟩

/-- Claim C6: the lock key is exactly `<lock-name>:lock:<user-id>`, and
for a fixed lock name two distinct user ids always produce distinct
lock keys, so different users never contend on the same key. -/
theorem lock_key_format_and_injective (lock_name : String) :
    (∀ user_id : String,
      lock_key lock_name user_id = lock_name ++ ":lock:" ++ user_id) ∧
    (∀ u1 u2 : String, u1 ≠ u2 →
      lock_key lock_name u1 ≠ lock_key lock_name u2) := by
  refine ⟨fun _ => rfl, ?_⟩
  intro u1 u2 hne heq
  apply hne
  apply String.ext
  have h := String.data_eq_of_eq heq
  simp only [lock_key, String.data_append, List.append_assoc] at h
  exact List.append_cancel_left (List.append_cancel_left h)

/-- Witness for lock_key_format_and_injective: tts keys of alice and
bob differ. -/
theorem lock_key_injective_witness :
    lock_key "tts" "alice" ≠ lock_key "tts" "bob" :=
  (lock_key_format_and_injective "tts").2 "alice" "bob" (by decide)

/-- The mutable state of a `RedisLockManager` (redis_lock.py lines
13-17): configuration plus the lazily created client, with only the
presence of the client modelled (the client object itself is external). -/
structure RedisLockManager : Type where
  host : String
  port : Nat
  lock_ttl_seconds : Nat
  client : Option Unit
deriving DecidableEq

/-- Connection operations performed by `close`. -/
inductive CloseEvent : Type where
  | closeConnection : CloseEvent
deriving DecidableEq

/-- `RedisLockManager.close` (redis_lock.py lines 25-29): if a client
exists, close its connection and clear the field; otherwise do
nothing.  Returns the new state and the connection operations
performed. -/
def close (m : RedisLockManager) : RedisLockManager × List CloseEvent :=
  match m.client with
  | some _ => ({ m with client := none }, [CloseEvent.closeConnection])
  | none => (m, [])

/-- Claim C8: close is idempotent: after the first call the client
field is None, a second call performs no connection operation and
leaves the state unchanged, and close on a manager that never created
a client is a no-op. -/
theorem close_idempotent (m : RedisLockManager) :
    (close m).1.client = none ∧
    close (close m).1 = ((close m).1, []) ∧
    (m.client = none → close m = (m, [])) := by
  rcases hm : m.client with _ | c
  · exact ⟨by simp [close, hm], by simp [close, hm], fun _ => by simp [close, hm]⟩
  · refine ⟨by simp [close, hm], by simp [close, hm], ?_⟩
    intro h
    simp at h

/-- Witness for close_idempotent: a freshly constructed manager with no
client. -/
theorem close_idempotent_witness :
    close ⟨"localhost", 6379, 300, none⟩ = (⟨"localhost", 6379, 300, none⟩, []) :=
  (close_idempotent ⟨"localhost", 6379, 300, none⟩).2.2 rfl

/-- The character sequence of the sub-protocol marker "Bearer."
(tts_lock.py lines 145-146). -/
def bearerDot : List Char := ['B', 'e', 'a', 'r', 'e', 'r', '.']

/-- The character sequence of the header marker "Bearer " with a
trailing space (tts_lock.py line 130). -/
def bearerSpace : List Char := ['B', 'e', 'a', 'r', 'e', 'r', ' ']

theorem bearerDot_eq_data : bearerDot = "Bearer.".data := by decide

theorem bearerSpace_eq_data : bearerSpace = "Bearer ".data := by decide

/-- Python `protocol.replace("Bearer.", "")` (tts_lock.py line 146):
scan left to right; wherever the next 7 characters equal the pattern,
drop them and continue after the occurrence; otherwise keep one
character.  Every occurrence is removed, not only a leading prefix. -/
def stripAll : List Char → List Char
  | [] => []
  | c :: cs =>
    if (c :: cs).take 7 = bearerDot then stripAll ((c :: cs).drop 7)
    else c :: stripAll cs
termination_by l => l.length
decreasing_by
  all_goals simp only [List.length_drop, List.length_cons]
  all_goals omega

/-- Whether "Bearer." occurs in the list, by the same left-to-right
scan. -/
def hasBearerDot : List Char → Bool
  | [] => false
  | c :: cs => ((c :: cs).take 7 == bearerDot) || hasBearerDot cs

theorem stripAll_length_le : ∀ l : List Char, (stripAll l).length ≤ l.length
  | [] => by simp [stripAll]
  | c :: cs => by
      simp only [stripAll]
      split
      · have h1 := stripAll_length_le ((c :: cs).drop 7)
        simp only [List.length_drop, List.length_cons] at h1 ⊢
        omega
      · have h2 := stripAll_length_le cs
        simp only [List.length_cons]
        omega
termination_by l => l.length
decreasing_by
  all_goals simp only [List.length_drop, List.length_cons]
  all_goals omega

theorem stripAll_eq_self : ∀ l : List Char, hasBearerDot l = false → stripAll l = l
  | [], _ => by simp [stripAll]
  | c :: cs, h => by
      simp only [hasBearerDot, Bool.or_eq_false_iff, beq_eq_false_iff_ne] at h
      simp only [stripAll]
      rw [if_neg h.1, stripAll_eq_self cs h.2]

theorem stripAll_length_lt :
    ∀ l : List Char, hasBearerDot l = true → (stripAll l).length < l.length
  | [], h => by simp [hasBearerDot] at h
  | c :: cs, h => by
      simp only [hasBearerDot, Bool.or_eq_true, beq_iff_eq] at h
      simp only [stripAll]
      by_cases hc : (c :: cs).take 7 = bearerDot
      · rw [if_pos hc]
        have h1 := stripAll_length_le ((c :: cs).drop 7)
        simp only [List.length_drop, List.length_cons] at h1 ⊢
        omega
      · rw [if_neg hc]
        have h2 := stripAll_length_lt cs (by
          rcases h with h | h
          · exact absurd h hc
          · exact h)
        simp only [List.length_cons]
        omega

theorem hasBearerDot_iff_occurs :
    ∀ l : List Char, hasBearerDot l = true ↔ bearerDot <:+: l
  | [] => by
      simp [hasBearerDot]
      decide
  | c :: cs => by
      simp only [hasBearerDot, Bool.or_eq_true, beq_iff_eq]
      rw [List.infix_cons_iff, hasBearerDot_iff_occurs cs]
      have hpre : bearerDot <+: c :: cs ↔ (c :: cs).take 7 = bearerDot := by
        rw [List.prefix_iff_eq_take]
        constructor
        · intro h
          exact h.symm
        · intro h
          exact h.symm
      rw [hpre]

theorem stripAll_bearer_head (l : List Char) :
    stripAll (bearerDot ++ l) = stripAll l := by
  rw [show bearerDot ++ l = 'B' :: 'e' :: 'a' :: 'r' :: 'e' :: 'r' :: '.' :: l from rfl]
  rw [stripAll]
  simp [bearerDot]

/-- `TTSLockMiddleware._extract_user_id` (tts_lock.py lines 127-139):
read the Authorization header; if it is absent, empty, or does not
start with "Bearer ", no identity; otherwise verify the token after
the 7-character prefix and return its subject claim.  `decode` models
`decode_access_token` followed by `payload.get("sub")`: the outer none
is a verification failure, the inner none an absent subject claim. -/
def extract_user_id (decode : String → Option (Option String))
    (authHeader : Option String) : Option String :=
  match authHeader with
  | none => none
  | some h =>
    if h.data ≠ [] ∧ h.data.take 7 = bearerSpace then
      match decode (String.mk (h.data.drop 7)) with
      | none => none
      | some sub => sub
    else none

/-- `TTSLockMiddleware._extract_user_id_from_websocket` (tts_lock.py
lines 141-153): scan the offered sub-protocols; for the first one
starting with "Bearer.", verify the protocol string with every
occurrence of "Bearer." removed (str.replace) and return its subject
claim; a verification failure or absent subject ends the scan with no
identity. -/
def extract_user_id_from_websocket (decode : String → Option (Option String)) :
    List String → Option String
  | [] => none
  | p :: rest =>
    if p.data.take 7 = bearerDot then
      match decode (String.mk (stripAll p.data)) with
      | none => none
      | some sub => sub
    else extract_user_id_from_websocket decode rest

/-- The parts of an inbound request read by `TTSLockMiddleware.dispatch`. -/
structure Request : Type where
  method : String
  path : String
  authHeader : Option String
  subprotocols : List String
deriving DecidableEq

/-- Identity-extraction and lock-manager actions the middleware can
perform; a lockAcquire is the only source of coordination-store I/O. -/
inductive MwEvent : Type where
  | extractHeader : MwEvent
  | extractWs : MwEvent
  | lockAcquire : String → String → MwEvent
deriving DecidableEq

/-- The client-visible shape of the dispatch result: the downstream
handler ran wrapped in acquire_lock, the downstream handler ran
unguarded, or an HTTP 401 rejection.  The last constructor is never
produced by the code; it is present to state the spec-level
unauthenticated rejection. -/
inductive MwOutcome : Type where
  | callNextLocked : String → String → MwOutcome
  | callNextPlain : MwOutcome
  | reject401 : MwOutcome
deriving DecidableEq

/-- The second gate of `TTSLockMiddleware.dispatch` and the final
pass-through (tts_lock.py lines 115-125), reached when the first gate
did not return: a request to /v1/user/new-conversation with an
extractable websocket identity runs under the stt lock; everything
else falls through to a plain call_next. -/
def dispatchTail (decode : String → Option (Option String)) (req : Request)
    (evs : List MwEvent) : List MwEvent × MwOutcome :=
  if req.path = "/v1/user/new-conversation" then
    match extract_user_id_from_websocket decode req.subprotocols with
    | some uid => (evs ++ [MwEvent.extractWs, MwEvent.lockAcquire "stt" uid],
                   MwOutcome.callNextLocked "stt" uid)
    | none => (evs ++ [MwEvent.extractWs], MwOutcome.callNextPlain)
  else (evs, MwOutcome.callNextPlain)

/-- `TTSLockMiddleware.dispatch` (tts_lock.py lines 101-125): a POST to
/v1/tts/ with an extractable header identity runs under the tts lock;
otherwise control falls through to the second gate.  The result pairs
the performed actions with the outcome. -/
def dispatch (decode : String → Option (Option String)) (req : Request) :
    List MwEvent × MwOutcome :=
  if req.method = "POST" ∧ req.path = "/v1/tts/" then
    match extract_user_id decode req.authHeader with
    | some uid => ([MwEvent.extractHeader, MwEvent.lockAcquire "tts" uid],
                   MwOutcome.callNextLocked "tts" uid)
    | none => dispatchTail decode req [MwEvent.extractHeader]
  else dispatchTail decode req []

/-- Claim C7: a request matching neither gated route (not a POST to
/v1/tts/ and not a request to /v1/user/new-conversation) passes
through: no identity extraction and no lock-manager action occurs, and
the result is exactly the unmodified call_next(request). -/
theorem unmatched_passthrough (decode : String → Option (Option String))
    (req : Request)
    (h1 : ¬ (req.method = "POST" ∧ req.path = "/v1/tts/"))
    (h2 : req.path ≠ "/v1/user/new-conversation") :
    dispatch decode req = ([], MwOutcome.callNextPlain) := by
  unfold dispatch dispatchTail
  rw [if_neg h1, if_neg h2]

/-- Witness for unmatched_passthrough: a GET to /health. -/
theorem unmatched_passthrough_witness :
    dispatch (fun _ => none) ⟨"GET", "/health", none, []⟩ =
      ([], MwOutcome.callNextPlain) :=
  unmatched_passthrough (fun _ => none) ⟨"GET", "/health", none, []⟩
    (by decide) (by decide)

/-- Counterexample to claim C3: an unauthenticated POST to /v1/tts/
causes no lock-manager action, but dispatch does not reject it with
401: it forwards the request to the downstream handler unguarded. -/
theorem unauthenticated_passes_through :
    dispatch (fun _ => none) ⟨"POST", "/v1/tts/", none, []⟩ =
      ([MwEvent.extractHeader], MwOutcome.callNextPlain) ∧
    MwOutcome.callNextPlain ≠ MwOutcome.reject401 := by
  constructor
  · rfl
  · decide

/-- Claim C3 as amended: on a gated route whose credential is missing
or fails verification, dispatch performs no coordination-store I/O and
never invokes the lock manager, but instead of emitting a 401 it runs
the downstream handler unguarded. -/
theorem unauthenticated_no_lock (decode : String → Option (Option String))
    (req : Request)
    (h : (req.method = "POST" ∧ req.path = "/v1/tts/" ∧
            extract_user_id decode req.authHeader = none) ∨
         (¬ (req.method = "POST" ∧ req.path = "/v1/tts/") ∧
            req.path = "/v1/user/new-conversation" ∧
            extract_user_id_from_websocket decode req.subprotocols = none)) :
    (∀ n u : String, MwEvent.lockAcquire n u ∉ (dispatch decode req).1) ∧
    (dispatch decode req).2 = MwOutcome.callNextPlain := by
  rcases h with ⟨hm, hp, he⟩ | ⟨hn, hp, he⟩
  · have hne : req.path ≠ "/v1/user/new-conversation" := by
      rw [hp]
      decide
    unfold dispatch dispatchTail
    rw [if_pos ⟨hm, hp⟩, he, if_neg hne]
    exact ⟨fun n u hmem => by simp at hmem, rfl⟩
  · unfold dispatch dispatchTail
    rw [if_neg hn, if_pos hp, he]
    exact ⟨fun n u hmem => by simp at hmem, rfl⟩

/-- Witness for unauthenticated_no_lock: an unauthenticated POST to
/v1/tts/ produces no tts lock acquisition. -/
theorem unauthenticated_no_lock_witness :
    MwEvent.lockAcquire "tts" "u" ∉
      (dispatch (fun _ => none) ⟨"POST", "/v1/tts/", none, []⟩).1 :=
  (unauthenticated_no_lock (fun _ => none) ⟨"POST", "/v1/tts/", none, []⟩
    (Or.inl ⟨rfl, rfl, rfl⟩)).1 "tts" "u"

/-- Claim C10: for the first offered sub-protocol starting with
"Bearer.", the string passed to verification is that sub-protocol with
every occurrence of "Bearer." removed (str.replace), not just the
leading prefix stripped: if the token after the prefix itself contains
"Bearer." the verified string differs from that token, while for
tokens without "Bearer." the two coincide. -/
theorem replace_removes_every_occurrence
    (decode : String → Option (Option String)) (t : String) (rest : List String) :
    (extract_user_id_from_websocket decode (String.mk (bearerDot ++ t.data) :: rest) =
      (match decode (String.mk (stripAll (bearerDot ++ t.data))) with
       | none => none
       | some sub => sub)) ∧
    (¬ bearerDot <:+: t.data →
      String.mk (stripAll (bearerDot ++ t.data)) = t) ∧
    (bearerDot <:+: t.data →
      String.mk (stripAll (bearerDot ++ t.data)) ≠ t) := by
  have htake : (bearerDot ++ t.data).take 7 = bearerDot :=
    List.take_left' rfl
  refine ⟨?_, ?_, ?_⟩
  · unfold extract_user_id_from_websocket
    rw [show (String.mk (bearerDot ++ t.data)).data = bearerDot ++ t.data from rfl]
    rw [if_pos htake]
  · intro hno
    rw [stripAll_bearer_head]
    rw [stripAll_eq_self t.data (by
      rcases hb : hasBearerDot t.data with _ | _
      · rfl
      · exact absurd ((hasBearerDot_iff_occurs t.data).1 hb) hno)]
  · intro hyes heq
    have hlt := stripAll_length_lt t.data ((hasBearerDot_iff_occurs t.data).2 hyes)
    have hdata := String.data_eq_of_eq heq
    rw [show (String.mk (stripAll (bearerDot ++ t.data))).data =
          stripAll (bearerDot ++ t.data) from rfl] at hdata
    rw [stripAll_bearer_head] at hdata
    rw [hdata] at hlt
    omega

/-- Witness for replace_removes_every_occurrence: the token
"xBearer.y" (which contains the marker) is not verified verbatim,
while the token "abc" is. -/
theorem replace_removes_every_occurrence_witness :
    String.mk (stripAll (bearerDot ++ ("xBearer.y" : String).data)) ≠ "xBearer.y" ∧
    String.mk (stripAll (bearerDot ++ ("abc" : String).data)) = "abc" :=
  ⟨(replace_removes_every_occurrence (fun _ => none) "xBearer.y" []).2.2 (by decide),
   (replace_removes_every_occurrence (fun _ => none) "abc" []).2.1 (by decide)⟩

end InvincibleVoice
